import Mathlib

/-!
Verification development for the `mysql2-db` statement-batch execution engine
(`src/db.js`).  The JavaScript source is shallowly embedded: JavaScript values
become the inductive `JVal` (with finite numbers as rationals and a separate
`NaN`), fallible construction becomes `Except`, and the callback-chained
orchestrator `doFinale` becomes a pure function from a driver oracle to an
event trace, a callback outcome and the updated stage state.
-/

namespace Mysql2Db

/-- Model of a JavaScript (JSON-style) runtime value.  `jnull` models both
`null` and `undefined` (the source treats them identically in every check it
performs: `x === null || x === undefined`, `x == null`, truthiness).  Finite
numbers are modelled as rationals; `jnan` models `NaN`. -/
inductive JVal where
  | jnull
  | jnan
  | jnum (q : ℚ)
  | jstr (s : String)
  | jbool (b : Bool)
  | jarr (xs : List JVal)
  | jobj (fs : List (String × JVal))

/-- `v === null || v === undefined` (both collapse onto `jnull`). -/
def JVal.isNull : JVal → Bool
  | .jnull => true
  | _ => false

/-- JavaScript truthiness test `!v` (negated): `null`, `undefined`, `NaN`,
`0`, `""` and `false` are falsy; objects and arrays are always truthy. -/
def jsFalsy : JVal → Bool
  | .jnull => true
  | .jnan => true
  | .jnum q => q = 0
  | .jstr s => s.isEmpty
  | .jbool b => !b
  | _ => false

/-- Truthiness of `v.length` as used in `if (!resultSet.length)`: only arrays
and strings have a `length` property; for every other value the property is
`undefined`, hence falsy. -/
def jsLengthTruthy : JVal → Bool
  | .jarr xs => !xs.isEmpty
  | .jstr s => !s.isEmpty
  | _ => false

/-- `v[0]`: first element of an array, `undefined` (= `jnull`) otherwise.
(Indexing a string would yield a one-character string; string result sets are
outside the driver contract and are not modelled.) -/
def jsIndex0 : JVal → JVal
  | .jarr (x :: _) => x
  | _ => .jnull

/-- The value seen by the first iteration of `for (var p in resultRow)`:
the first own property of an object (insertion order), the element at index
`"0"` of an array, and nothing for property-less primitives. -/
def jsFirstProp : JVal → Option JVal
  | .jobj ((_, v) :: _) => some v
  | .jarr (v :: _) => some v
  | _ => none

/- ### The JavaScript `parseFloat` and number/value-to-string primitives.

These model host-language builtins that `formatResult` calls
(`parseFloat("" + vl)`), not repository code.  `parseFloatJs` parses the
longest numeric prefix (optional sign, decimal digits with optional fraction
and optional exponent), returning `none` for `NaN`; the `Infinity` literal is
not modelled.  `jsToString` renders finite numbers as (possibly truncated)
decimal strings; every actual JavaScript float has a finite decimal
rendering, so on driver-supplied numbers the truncation fuel is irrelevant. -/

/-- Digits-to-natural, as `parseInt(s, 10)` on a nonempty all-digit string. -/
def digitsToNat (ds : List Char) : Nat :=
  ds.foldl (fun a c => a * 10 + (c.toNat - '0'.toNat)) 0

/-- The exponent part of a JavaScript float literal: `e`/`E`, optional sign,
digits.  Returns the multiplier exponent and the remaining input; an
ill-formed exponent contributes nothing (JS stops parsing before the `e`). -/
def parseExponent (l : List Char) : Int :=
  match l with
  | 'e' :: rest | 'E' :: rest =>
    let (sign, rest') : Int × List Char :=
      match rest with
      | '-' :: t => (-1, t)
      | '+' :: t => (1, t)
      | _ => (1, rest)
    let ds := rest'.takeWhile Char.isDigit
    if ds.isEmpty then 0 else sign * (digitsToNat ds : Int)
  | _ => 0

/-- Model of `parseFloat`: `none` is `NaN`. -/
def parseFloatJs (s : String) : Option ℚ :=
  let l := s.data.dropWhile Char.isWhitespace
  let (sign, l₁) : ℚ × List Char :=
    match l with
    | '-' :: t => (-1, t)
    | '+' :: t => (1, t)
    | _ => (1, l)
  let ip := l₁.takeWhile Char.isDigit
  let l₂ := l₁.dropWhile Char.isDigit
  match l₂ with
  | '.' :: t =>
    let fp := t.takeWhile Char.isDigit
    if ip.isEmpty && fp.isEmpty then none
    else
      let mant : ℚ := (digitsToNat ip : ℚ) + (digitsToNat fp : ℚ) / ((10 : ℚ) ^ fp.length)
      let ex := parseExponent (t.dropWhile Char.isDigit)
      some (sign * mant * (10 : ℚ) ^ ex)
  | _ =>
    if ip.isEmpty then none
    else some (sign * (digitsToNat ip : ℚ) * (10 : ℚ) ^ parseExponent l₂)

/-- Fractional decimal digits of `r / d` by long division, with fuel. -/
def fracDigits : Nat → Nat → Nat → List Char
  | 0, _, _ => []
  | _ + 1, 0, _ => []
  | fuel + 1, r, d =>
    let r10 := r * 10
    Char.ofNat ('0'.toNat + r10 / d) :: fracDigits fuel (r10 % d) d

/-- Decimal rendering of a rational (JavaScript number-to-string on the
finite decimals that JavaScript numbers print as). -/
def ratToString (q : ℚ) : String :=
  let n := q.num.natAbs
  let d := q.den
  let intPart := toString (n / d)
  let rem := n % d
  (if q.num < 0 then "-" else "") ++ intPart ++
    (if rem = 0 then "" else "." ++ String.mk (fracDigits 30 rem d))

mutual

/-- JavaScript string coercion `"" + v`. -/
def jsToString : JVal → String
  | .jnull => "null"
  | .jnan => "NaN"
  | .jnum q => ratToString q
  | .jstr s => s
  | .jbool b => if b then "true" else "false"
  | .jarr xs => String.intercalate "," (jsToStringList xs)
  | .jobj _ => "[object Object]"

/-- Element-wise array join: `null`/`undefined` elements join as `""`. -/
def jsToStringList : List JVal → List String
  | [] => []
  | .jnull :: xs => "" :: jsToStringList xs
  | x :: xs => jsToString x :: jsToStringList xs

end

/- ### Placeholder parser (`parseSql`, src/db.js lines 126-159).

The source scans the SQL with the global regex
`(:[a-zA-Z0-9_]+)|(\?)|(\$[0-9]+)` (via `sql.match`) and separately rewrites
each match to `"?"` (via `sql.replace`).  Both are one left-to-right scan with
the same token grammar, modelled here by a single scanner returning the typed
match list together with the rewritten character list. -/

/-- One regex match, classified by its first character as the source's
`switch (mtype)` does.  The payloads are the `match.substring(1)` data. -/
inductive Tok where
  | named (name : String)
  | pos
  | cross (n : Nat)
deriving DecidableEq

/-- `[a-zA-Z0-9_]` -/
def isWordChar (c : Char) : Bool :=
  c.isAlpha || c.isDigit || c = '_'

theorem length_dropWhile_le (p : Char → Bool) (l : List Char) :
    (l.dropWhile p).length ≤ l.length := by
  induction l with
  | nil => simp [List.dropWhile]
  | cons a t ih =>
    rw [List.dropWhile_cons]
    split
    · exact Nat.le_succ_of_le ih
    · exact Nat.le_refl _

/-- Left-to-right scan for the three token kinds; non-matching characters are
copied through, each match becomes the generic bind marker `'?'`.  The fuel
argument makes the recursion structural (every step consumes at least one
character, so fuel equal to the input length never runs out; the
out-of-fuel branch is therefore unreachable from `scanSql`). -/
def scanSqlGo : Nat → List Char → List Tok × List Char
  | _, [] => ([], [])
  | 0, l => ([], l)
  | fuel + 1, c :: rest =>
    if c = ':' then
      let name := rest.takeWhile isWordChar
      if name.isEmpty then
        let (ts, cs) := scanSqlGo fuel rest
        (ts, c :: cs)
      else
        let (ts, cs) := scanSqlGo fuel (rest.dropWhile isWordChar)
        (.named (String.mk name) :: ts, '?' :: cs)
    else if c = '?' then
      let (ts, cs) := scanSqlGo fuel rest
      (.pos :: ts, '?' :: cs)
    else if c = '$' then
      let ds := rest.takeWhile Char.isDigit
      if ds.isEmpty then
        let (ts, cs) := scanSqlGo fuel rest
        (ts, c :: cs)
      else
        let (ts, cs) := scanSqlGo fuel (rest.dropWhile Char.isDigit)
        (.cross (digitsToNat ds) :: ts, '?' :: cs)
    else
      let (ts, cs) := scanSqlGo fuel rest
      (ts, c :: cs)

/-- The scan of a full SQL text. -/
def scanSql (l : List Char) : List Tok × List Char :=
  scanSqlGo l.length l

/-- A parameter reference as stored in `matchRefs`: the source pushes either
a string (for `:name`) or a number (for `$n` and `?`). -/
inductive Ref where
  | str (s : String)
  | idx (n : Nat)
deriving DecidableEq

/-- The `switch (mtype)` body of the match loop: reference pushed for the
`i`-th match. -/
def refOfTok (i : Nat) : Tok → Ref
  | .named s => .str s
  | .cross n => .idx n
  | .pos => .idx i

/-- `match.charAt(0)`, the type tag pushed for a match. -/
def charOfTok : Tok → Char
  | .named _ => ':'
  | .cross _ => '$'
  | .pos => '?'

/-- The `bindStyles` object: which placeholder styles occur. -/
structure BindStyles where
  colon : Bool
  qmark : Bool
  dollar : Bool
deriving DecidableEq

/-- `bindStyles[mtype] = true` accumulated over the match loop. -/
def stylesOf (ts : List Tok) : BindStyles :=
  ts.foldl
    (fun bs t =>
      match t with
      | .named _ => { bs with colon := true }
      | .cross _ => { bs with dollar := true }
      | .pos => { bs with qmark := true })
    ⟨false, false, false⟩

/-- The match loop of `parseSql`, building `matchRefs` and `matchTypes` in
match order, carrying the running match index `i`. -/
def buildRefs : List Tok → Nat → List Ref × List Char
  | [], _ => ([], [])
  | t :: ts, i =>
    let (rs, cs) := buildRefs ts (i + 1)
    (refOfTok i t :: rs, charOfTok t :: cs)

/-- Result record of `parseSql`. -/
structure Parsed where
  rawSql : String
  sql : String
  paramRefs : List Ref
  paramTypes : List Char
  bindStyles : BindStyles

/-- `parseSql` (src/db.js lines 126-159). -/
def parseSql (sql : String) : Parsed :=
  let (toks, clean) := scanSql sql.data
  let (refs, types) := buildRefs toks 0
  { rawSql := sql
    sql := String.mk clean
    paramRefs := refs
    paramTypes := types
    bindStyles := stylesOf toks }

/- ### Operation construction (`doAction`, src/db.js lines 78-170). -/

/-- The five opcodes (`'e'`, `'q'`, `'qi'`, `'qf'`, `'qs'`). -/
inductive Opcode where
  | e | q | qi | qf | qs
deriving DecidableEq

/-- Return value of `computeParamShape`: the source returns the JavaScript
`false` for absent params, else one of the shape strings. -/
inductive ParamShape where
  | noParams   -- `false`
  | scalar     -- "scalar"
  | obj        -- "object"
  | arr        -- "array"
  | arrArr     -- "array.array"
  | arrObj     -- "array.object"
deriving DecidableEq

/-- `computeParamShape` (src/db.js lines 160-169).  Note the source returns
plain `"array"` for an empty array and when the first element is `null`. -/
def computeParamShape : JVal → ParamShape
  | .jnull => .noParams
  | .jobj _ => .obj
  | .jarr [] => .arr
  | .jarr (x :: _) =>
    match x with
    | .jnull => .arr
    | .jarr _ => .arrArr
    | .jobj _ => .arrObj
    | _ => .arr
  | _ => .scalar

/-- The recursive null-leaf rejection of `doAction` (src/db.js lines
98-123): one level of array nesting and the own properties of objects are
checked; a scalar `params` is not checked. -/
def hasNullLeaf : JVal → Bool
  | .jarr xs =>
    xs.any fun p =>
      match p with
      | .jnull => true
      | .jarr ys => ys.any JVal.isNull
      | .jobj fs => fs.any fun kv => kv.2.isNull
      | _ => false
  | .jobj fs => fs.any fun kv => kv.2.isNull
  | _ => false

/-- The error taxonomy of the library.  Construction-time errors carry the
payloads interpolated into the source's messages; `driver` stands for an
arbitrary error produced by the mysql2 driver. -/
inductive Err where
  | shutdown                                -- "Databases are closing down."
  | internalCfg                             -- "Internal error: config not passed through"
  | missingCallback                         -- "Oops, you forgot to provide a function to call back..."
  | alreadyFinale                           -- "You already had your finale on this stage..."
  | blankSql                                -- "The SQL provided is blank or missing."
  | mixedStyles (sql : String)              -- "... uses ? placeholders and : named placeholders ..."
  | qmarkShape (sql : String) (shape : ParamShape)
  | namedShape (sql : String) (shape : ParamShape)
  | nullParam                               -- "You have at least one null value in your parameters..."
  | refsTypesMismatch (a b : Nat)           -- makeArgs length assertion
  | unknownParamType                        -- makeArgs default branch
  | driver (code : Nat)
deriving DecidableEq

/-- The UsageError category of the spec's taxonomy (section 7). -/
def Err.isUsage : Err → Bool
  | .missingCallback | .alreadyFinale | .blankSql | .mixedStyles _
  | .qmarkShape _ _ | .namedShape _ _ | .nullParam => true
  | _ => false

/-- The ShutdownError category of the spec's taxonomy (section 7). -/
def Err.isShutdown : Err → Bool
  | .shutdown => true
  | _ => false

/-- An Operation descriptor: the fields of the object `doAction` returns
that the execution path reads. -/
structure Op where
  opcode : Opcode
  rawSql : String
  sql : String
  paramRefs : List Ref
  paramTypes : List Char
  dflt : JVal
  paramVals : JVal
  isMulti : Bool

instance : Inhabited Op :=
  ⟨⟨.e, "", "", [], [], .jnull, .jnull, false⟩⟩

/-- `doAction` (src/db.js lines 78-124).  `params ? params : null` replaces a
falsy parameter value by `null`; the `JSON.parse(JSON.stringify(...))` clone
is then the identity on the JSON-safe values `JVal` models.  The
missing-opcode check cannot fire (the opcode type is total), and the SQL is
taken as a string so only the blank check of `!sql` remains. -/
def doAction (opcode : Opcode) (sql : String) (params : JVal) (dflt : JVal) :
    Except Err Op :=
  let params := if jsFalsy params then .jnull else params
  if sql.isEmpty then .error .blankSql
  else
    let p := parseSql sql
    let shape := computeParamShape params
    let isMulti := shape = .arrArr || shape = .arrObj
    if p.bindStyles.colon && p.bindStyles.qmark then
      .error (.mixedStyles sql)
    else if p.bindStyles.qmark && !(shape = .arr || shape = .arrArr) then
      .error (.qmarkShape sql shape)
    else if p.bindStyles.colon && !(shape = .obj || shape = .arrObj) then
      .error (.namedShape sql shape)
    else if hasNullLeaf params then
      .error .nullParam
    else
      .ok { opcode := opcode
            rawSql := sql
            sql := p.sql
            paramRefs := p.paramRefs
            paramTypes := p.paramTypes
            dflt := dflt
            paramVals := params
            isMulti := isMulti }

/-- `stage.execute(sql, params)` (src/db.js line 28); an absent `params`
argument is `jnull`. -/
def execute (sql : String) (params : JVal) : Except Err Op :=
  doAction .e sql params .jnull

/-- `stage.query(sql, params)` (src/db.js line 34). -/
def query (sql : String) (params : JVal) : Except Err Op :=
  doAction .q sql params .jnull

/-- `stage.queryInt(sql, params, dflt)` (src/db.js line 43). -/
def queryInt (sql : String) (params : JVal) (dflt : JVal) : Except Err Op :=
  doAction .qi sql params dflt

/-- `stage.queryFloat(sql, params, dflt)` (src/db.js line 52). -/
def queryFloat (sql : String) (params : JVal) (dflt : JVal) : Except Err Op :=
  doAction .qf sql params dflt

/-- `stage.queryString(sql, params, dflt)` (src/db.js line 61). -/
def queryString (sql : String) (params : JVal) (dflt : JVal) : Except Err Op :=
  doAction .qs sql params dflt

/- ### Driver oracle and event trace.

The mysql2 driver is an external collaborator.  It is modelled as a
deterministic oracle: one response per API entry point, with statement
execution keyed by the clean SQL and the bound argument list.  The
orchestrator additionally produces an ordered trace of the driver calls it
makes, which is what the "touches no connection / releases on every path"
claims quantify over.  `rollbackRes` and `releaseRes` appear in the oracle
but the source never reads their error arguments (the rollback callback and
the release continuation ignore them), which the theorems make explicit. -/

structure Driver where
  poolRes : Except Err Unit
  connRes : Except Err Unit
  execRes : String → List JVal → Except Err JVal
  beginRes : Except Err Unit
  commitRes : Except Err Unit
  rollbackRes : Except Err Unit
  releaseRes : Except Err Unit

/-- One driver interaction. -/
inductive Ev where
  | getPool
  | getConn
  | exec (sql : String) (args : List JVal)
  | beginTx
  | commit
  | rollback
  | release

/-- `explicitParams[paramRef]` for the `':'` and `'?'` cases of `makeArgs`:
array indexing for numeric refs, own-property lookup for string refs (a
numeric key on an object goes through string conversion as in JavaScript);
anything else is `undefined`. -/
def jsLookup (container : JVal) (r : Ref) : JVal :=
  match container, r with
  | .jarr xs, .idx n => xs.getD n .jnull
  | .jobj fs, .str s => ((fs.find? fun kv => kv.1 = s).map Prod.snd).getD .jnull
  | .jobj fs, .idx n => ((fs.find? fun kv => kv.1 = toString n).map Prod.snd).getD .jnull
  | _, _ => .jnull

/-- The `switch (paramType)` body of `makeArgs`: the value bound for one
reference/type pair.  (A string reference under `'$'` cannot be produced by
the parser; indexing the results array with it yields `undefined`.) -/
def bindOne (explicitParams : JVal) (priorResults : List JVal)
    (rt : Ref × Char) : Except Err JVal :=
  match rt.2, rt.1 with
  | ':', r => .ok (jsLookup explicitParams r)
  | '$', .idx n => .ok (priorResults.getD n .jnull)
  | '$', .str _ => .ok .jnull
  | '?', r => .ok (jsLookup explicitParams r)
  | _, _ => .error .unknownParamType

/-- The `for (var i = 0; i < paramRefs.length; i++) rv.push(...)` loop of
`makeArgs`, over the paired reference/type lists. -/
def bindAll (explicitParams : JVal) (priorResults : List JVal) :
    List (Ref × Char) → Except Err (List JVal)
  | [] => .ok []
  | rt :: rts =>
    match bindOne explicitParams priorResults rt with
    | .error e => .error e
    | .ok v =>
      match bindAll explicitParams priorResults rts with
      | .error e => .error e
      | .ok vs => .ok (v :: vs)

/-- `makeArgs` (src/db.js lines 310-333).  A `null`/`undefined` row of
explicit parameters is replaced by `[]` first; the length assertion and the
unknown-type default branch are the two throwing paths. -/
def makeArgs (paramRefs : List Ref) (paramTypes : List Char)
    (explicitParams : JVal) (priorResults : List JVal) : Except Err (List JVal) :=
  let explicitParams := if explicitParams.isNull then .jarr [] else explicitParams
  if paramRefs.length ≠ paramTypes.length then
    .error (.refsTypesMismatch paramRefs.length paramTypes.length)
  else
    bindAll explicitParams priorResults (paramRefs.zip paramTypes)

/-- `resultsFromThisExec && resultsFromThisExec.affectedRows ? ... : 0`
(src/db.js line 356): the affected-row count of one driver result.  A falsy
(zero, `NaN`, missing, non-object) count contributes `0` either way. -/
def affectedRowsOf : JVal → ℚ
  | .jobj fs =>
    match (fs.find? fun kv => kv.1 = "affectedRows").map Prod.snd with
    | some (.jnum q) => q
    | _ => 0
  | _ => 0

/-- Row copy in the `'q'` branch of `formatResult`: own properties copied
into a fresh object.  Driver rows are objects; for a property-less primitive
the copy is the empty object. -/
def copyRow : JVal → JVal
  | .jobj fs => .jobj fs
  | _ => .jobj []

/-- The scalar coercion attempt `vl = parseFloat("" + vl)` followed by the
integrality test, for the `'qi'` opcode. -/
def qiParse (dflt : JVal) (vl : JVal) : JVal :=
  match parseFloatJs (jsToString vl) with
  | none => dflt
  | some q => if q.den = 1 then .jnum q else dflt

/-- The scalar coercion attempt for the `'qf'` opcode. -/
def qfParse (dflt : JVal) (vl : JVal) : JVal :=
  match parseFloatJs (jsToString vl) with
  | none => dflt
  | some q => .jnum q

/-- The `switch (op.opcode)` on the first value of the first row. -/
def coerceScalar (opcode : Opcode) (dflt : JVal) (vl : JVal) : JVal :=
  match opcode with
  | .qi =>
    match vl with
    | .jnum q => if q.den = 1 then .jnum q else qiParse dflt vl
    | _ => qiParse dflt vl
  | .qf =>
    match vl with
    | .jnum q => .jnum q
    | _ => qfParse dflt vl
  | .qs =>
    match vl with
    | .jstr s => .jstr s
    | _ => .jstr (jsToString vl)
  | _ => vl

/-- `formatResult` (src/db.js lines 402-447).  For `'q'` every row is copied;
for the scalar opcodes only the first own property of the first row is
inspected, with the default returned on a falsy result set, an empty result
set, a falsy first row, a property-less first row, or a `null` first value.
(A non-array result set in the `'q'` branch would throw in JavaScript; the
driver contract returns row arrays for queries, so that case is mapped to
`undefined` here.) -/
def formatResult (op : Op) (resultSet : JVal) : JVal :=
  if op.opcode = .q then
    match resultSet with
    | .jarr rows => .jarr (rows.map copyRow)
    | _ => .jnull
  else
    if jsFalsy resultSet then op.dflt
    else if !jsLengthTruthy resultSet then op.dflt
    else
      let resultRow := jsIndex0 resultSet
      if jsFalsy resultRow then op.dflt
      else
        match jsFirstProp resultRow with
        | none => op.dflt
        | some vl =>
          if vl.isNull then op.dflt
          else coerceScalar op.opcode op.dflt vl

/-- The row container actually iterated: the source wraps a single-row
operation's params as `[paramVals]` and iterates a multi-row container
element-wise (`isMulti` guarantees it is an array). -/
def rowContainers (op : Op) : List JVal :=
  if op.isMulti then
    match op.paramVals with
    | .jarr xs => xs
    | _ => []
  else [op.paramVals]

/-- The `doNextExec` loop of `doExecute` (src/db.js lines 344-362):
one driver execution per row container, summing affected-row counts. -/
def execLoop (d : Driver) (op : Op) (prior : List JVal) :
    List JVal → ℚ → List Ev × Except Err ℚ
  | [], acc => ([], .ok acc)
  | row :: rows, acc =>
    match makeArgs op.paramRefs op.paramTypes row prior with
    | .error e => ([], .error e)
    | .ok args =>
      match d.execRes op.sql args with
      | .error e => ([.exec op.sql args], .error e)
      | .ok res =>
        let (tr, out) := execLoop d op prior rows (acc + affectedRowsOf res)
        (.exec op.sql args :: tr, out)

/-- `doExecute` (src/db.js lines 335-366). -/
def doExecuteM (d : Driver) (op : Op) (prior : List JVal) :
    List Ev × Except Err ℚ :=
  execLoop d op prior (rowContainers op) 0

/-- The `doNextExec` loop of `doQuery` (src/db.js lines 376-396):
one driver execution per row container, collecting `formatResult` outputs. -/
def queryLoop (d : Driver) (op : Op) (prior : List JVal) :
    List JVal → List Ev × Except Err (List JVal)
  | [] => ([], .ok [])
  | row :: rows =>
    match makeArgs op.paramRefs op.paramTypes row prior with
    | .error e => ([], .error e)
    | .ok args =>
      match d.execRes op.sql args with
      | .error e => ([.exec op.sql args], .error e)
      | .ok res =>
        let (tr, out) := queryLoop d op prior rows
        (.exec op.sql args :: tr,
         out.map fun vs => formatResult op res :: vs)

/-- `doQuery` (src/db.js lines 368-400): a singular execution unbundles the
one collected result, a multi-row execution returns the array. -/
def doQueryM (d : Driver) (op : Op) (prior : List JVal) :
    List Ev × Except Err JVal :=
  let (tr, out) := queryLoop d op prior (rowContainers op)
  (tr, out.map fun vs => if op.isMulti then .jarr vs else vs.getD 0 .jnull)

/-- Dispatch of `fillInResults` (src/db.js line 278):
`fn = (nextOp.opcode == 'e' ? doExecute : doQuery)`. -/
def runOp (d : Driver) (op : Op) (prior : List JVal) : List Ev × Except Err JVal :=
  if op.opcode = .e then
    let (tr, out) := doExecuteM d op prior
    (tr, out.map .jnum)
  else doQueryM d op prior

/-- `fillInResults` (src/db.js lines 272-290): run the pending operations
strictly in order, growing the results list, stopping at the first error.
Returns the trace, the final contents of `results`, and the error if any. -/
def runOps (d : Driver) : List Op → List JVal → List Ev × List JVal × Option Err
  | [], acc => ([], acc, none)
  | op :: rest, acc =>
    match runOp d op acc with
    | (tr, .error e) => (tr, acc, some e)
    | (tr, .ok v) =>
      let (tr', res, err) := runOps d rest (acc ++ [v])
      (tr ++ tr', res, err)

/- ### The finalization orchestrator (`doFinale`, src/db.js lines 227-308). -/

/-- The per-stage state: the queued operations and the single-use seal
(`ops.finaleComplete`). -/
structure StageState where
  ops : List Op
  finaleComplete : Bool

/-- What the caller observes from one finalization: either the callback is
invoked with `(err, rv)`, or the attempt to invoke a missing/non-function
callback throws a synchronous `TypeError` out of `finale` (modelled as
`crashed`). -/
inductive Outcome where
  | callback (err : Option Err) (rv : JVal)
  | crashed (msg : String)

/-- `return cb(e)` when `cb` may not be callable: a present callback is
invoked, a missing or non-function callback throws. -/
def callOrCrash (cbPresent : Bool) (err : Option Err) (rv : JVal) : Outcome :=
  if cbPresent then .callback err rv else .crashed "TypeError: cb is not a function"

/-- The implicit commit-mode statement issued first
(src/db.js line 247). -/
def setCommitSql (bTransact : Bool) : String :=
  "SET autocommit=" ++ (if bTransact then "0" else "1")

/-- `doFinale` (src/db.js lines 227-308), as a pure function of the closing
flag, configuration presence, stage state, callback presence, transaction
flag and driver oracle.  Mirrors the source exactly:

* the early rejections (shutdown, missing config, missing callback, sealed
  stage) return before any driver call;
* `!ops` can never fire (the ops array always exists) and is omitted;
* `finaleComplete` is set once the early checks pass;
* the `finalize` teardown always calls `conn.rollback` when
  `transactionHasStarted` (even after a successful commit) and always
  releases an acquired connection, ignoring rollback and release errors;
* the callback receives `results[0]` for a single-operation stage and the
  results array otherwise, also on error paths (partially filled). -/
def doFinale (closing : Bool) (cfgPresent : Bool) (st : StageState)
    (cbPresent : Bool) (bTransact : Bool) (d : Driver) :
    List Ev × Outcome × StageState :=
  if closing then ([], callOrCrash cbPresent (some .shutdown) .jnull, st)
  else if !cfgPresent then ([], callOrCrash cbPresent (some .internalCfg) .jnull, st)
  else if !cbPresent then ([], .crashed "TypeError: cb is not a function", st)
  else if st.finaleComplete then ([], .callback (some .alreadyFinale) .jnull, st)
  else
    let st' : StageState := { st with finaleComplete := true }
    let singular := st.ops.length = 1
    let rv0 : JVal := if singular then .jnull else .jarr []
    match d.poolRes with
    | .error e => ([.getPool], .callback (some e) rv0, st')
    | .ok _ =>
      match d.connRes with
      | .error e => ([.getPool, .getConn], .callback (some e) rv0, st')
      | .ok _ =>
        match doAction .e (setCommitSql bTransact) .jnull .jnull with
        | .error _ =>
          -- unreachable: the commit-mode statement always constructs
          ([.getPool, .getConn], .crashed "uncaught construction error", st')
        | .ok setOp =>
          let (setTr, setRes) := doExecuteM d setOp []
          let pre := [Ev.getPool, Ev.getConn] ++ setTr
          match setRes with
          | .error e => (pre ++ [.release], .callback (some e) rv0, st')
          | .ok _ =>
            if bTransact then
              match d.beginRes with
              | .error e =>
                (pre ++ [.beginTx, .release], .callback (some e) rv0, st')
              | .ok _ =>
                let (opsTr, results, errOpt) := runOps d st.ops []
                let rv : JVal :=
                  if singular then results.getD 0 .jnull else .jarr results
                match errOpt with
                | some e =>
                  (pre ++ [.beginTx] ++ opsTr ++ [.rollback, .release],
                   .callback (some e) rv, st')
                | none =>
                  match d.commitRes with
                  | .error e =>
                    (pre ++ [.beginTx] ++ opsTr ++ [.commit, .rollback, .release],
                     .callback (some e) rv, st')
                  | .ok _ =>
                    (pre ++ [.beginTx] ++ opsTr ++ [.commit, .rollback, .release],
                     .callback none rv, st')
            else
              let (opsTr, results, errOpt) := runOps d st.ops []
              let rv : JVal :=
                if singular then results.getD 0 .jnull else .jarr results
              (pre ++ opsTr ++ [.release], .callback errOpt rv, st')

/- ### The process-wide shutdown flag (src/db.js lines 172-205, 227-228).

`POOL_FUNCTIONS._closing` is process-global: `doCurtains` sets it to `true`
(and then drains the cached pools); nothing ever resets it.  `doFinale` only
reads it through `isClosing`.  The reachable evolutions of the flag are the
interleavings of `curtains` calls and finalizations. -/

structure SysState where
  closing : Bool

/-- A process-level action touching the library. -/
inductive SysAct where
  | curtains
  | finale (cfgPresent : Bool) (st : StageState) (cbPresent : Bool)
      (bTransact : Bool) (d : Driver)

/-- `POOL_FUNCTIONS.doCurtains` sets `_closing = true` (src/db.js line 192);
the subsequent pool-drain loop does not touch the flag. -/
def doCurtains (g : SysState) : SysState :=
  { g with closing := true }

/-- Effect of one action on the global flag: `doFinale` never writes
`_closing`. -/
def stepSys (g : SysState) : SysAct → SysState
  | .curtains => doCurtains g
  | .finale _ _ _ _ _ => g

/-- The flag after a sequence of actions. -/
def runSys (g : SysState) (acts : List SysAct) : SysState :=
  acts.foldl stepSys g

/- ## Concrete instances used by the witnesses -/

/-- A driver on which every call succeeds; statement execution reports one
affected row. -/
def okDriver : Driver where
  poolRes := .ok ()
  connRes := .ok ()
  execRes := fun _ _ => .ok (.jobj [("affectedRows", .jnum 1)])
  beginRes := .ok ()
  commitRes := .ok ()
  rollbackRes := .ok ()
  releaseRes := .ok ()

/-- Extract a successfully constructed operation. -/
def getOp (x : Except Err Op) : Op :=
  x.toOption.getD default

/-- A four-row multi-insert (array-of-arrays parameters). -/
def insertOp : Op :=
  getOp (execute "insert into t(a) values (?)"
    (.jarr [.jarr [.jnum 1], .jarr [.jnum 2], .jarr [.jnum 3], .jarr [.jnum 4]]))

/-- A parameterless scalar query with default `-1`. -/
def countOp : Op :=
  getOp (queryInt "select count(a) from t" .jnull (.jnum (-1)))

/-- A driver answering the count query with one row `{cnt: 4}` and every
other statement with one affected row. -/
def countDriver : Driver :=
  { okDriver with
    execRes := fun sql _ =>
      (if sql = "select count(a) from t" then .ok (.jarr [.jobj [("cnt", .jnum 4)]])
       else .ok (.jobj [("affectedRows", .jnum 1)])) }

/-- A driver failing the count query with a driver error and succeeding on
everything else. -/
def failDriver : Driver :=
  { countDriver with
    execRes := fun sql args =>
      (if sql = "select count(a) from t" then .error (.driver 7)
       else countDriver.execRes sql args) }

/- ## Supporting lemmas -/

theorem scanSqlGo_count (fuel : Nat) :
    ∀ l : List Char, l.length ≤ fuel →
      ((scanSqlGo fuel l).2.count '?') = (scanSqlGo fuel l).1.length := by
  induction fuel with
  | zero =>
    intro l hl
    have : l = [] := List.eq_nil_of_length_eq_zero (Nat.le_zero.mp hl)
    subst this
    simp [scanSqlGo]
  | succ fuel ih =>
    intro l hl
    match l with
    | [] => simp [scanSqlGo]
    | c :: rest =>
      have hrest : rest.length ≤ fuel := Nat.le_of_succ_le_succ hl
      have hdw : ∀ p : Char → Bool, (rest.dropWhile p).length ≤ fuel :=
        fun p => Nat.le_trans (length_dropWhile_le p rest) hrest
      by_cases h1 : c = ':'
      · subst h1
        by_cases h2 : (rest.takeWhile isWordChar).isEmpty
        · simp [scanSqlGo, h2, List.count_cons, ih rest hrest]
        · simp [scanSqlGo, h2, List.count_cons, ih _ (hdw isWordChar)]
      · by_cases h2 : c = '?'
        · subst h2
          simp [scanSqlGo, h1, List.count_cons, ih rest hrest]
        · by_cases h3 : c = '$'
          · subst h3
            by_cases h4 : (rest.takeWhile Char.isDigit).isEmpty
            · simp [scanSqlGo, h1, h2, h4, List.count_cons, ih rest hrest]
            · simp [scanSqlGo, h1, h2, h4, List.count_cons,
                ih _ (hdw Char.isDigit)]
          · simp [scanSqlGo, h1, h2, h3, List.count_cons, ih rest hrest]

theorem scanSql_count (l : List Char) :
    ((scanSql l).2.count '?') = (scanSql l).1.length :=
  scanSqlGo_count l.length l (Nat.le_refl _)

theorem buildRefs_types (ts : List Tok) (i : Nat) :
    (buildRefs ts i).2 = ts.map charOfTok := by
  induction ts generalizing i with
  | nil => simp [buildRefs]
  | cons t ts ih => simp [buildRefs, ih]

theorem buildRefs_length (ts : List Tok) (i : Nat) :
    (buildRefs ts i).1.length = ts.length := by
  induction ts generalizing i with
  | nil => simp [buildRefs]
  | cons t ts ih => simp [buildRefs, ih]

theorem buildRefs_getD (ts : List Tok) (i j : Nat) (hj : j < ts.length) :
    (buildRefs ts i).1.getD j (.idx 0) = refOfTok (i + j) (ts.getD j .pos) := by
  induction ts generalizing i j with
  | nil => cases hj
  | cons t ts ih =>
    cases j with
    | zero => simp [buildRefs]
    | succ j =>
      have hlt : j < ts.length := Nat.lt_of_succ_lt_succ hj
      have := ih (i + 1) j hlt
      simp only [buildRefs, List.getD_cons_succ]
      rw [this]
      congr 1
      omega

theorem bindAll_ok_spec (ep : JVal) (prior : List JVal) :
    ∀ (l : List (Ref × Char)) (out : List JVal),
      bindAll ep prior l = .ok out →
      out.length = l.length ∧
      ∀ (j : Nat) (dα : Ref × Char) (dβ : JVal), j < l.length →
        bindOne ep prior (l.getD j dα) = .ok (out.getD j dβ) := by
  intro l
  induction l with
  | nil =>
    intro out h
    simp only [bindAll, Except.ok.injEq] at h
    subst h
    exact ⟨rfl, fun j dα dβ hj => absurd hj (by simp)⟩
  | cons a l ih =>
    intro out h
    rw [bindAll] at h
    cases ha : bindOne ep prior a with
    | error e => rw [ha] at h; simp at h
    | ok b =>
      rw [ha] at h
      cases hl : bindAll ep prior l with
      | error e => rw [hl] at h; simp at h
      | ok bs =>
        rw [hl] at h
        simp only [Except.ok.injEq] at h
        subst h
        obtain ⟨hlen, hget⟩ := ih bs hl
        refine ⟨by simp [hlen], ?_⟩
        intro j dα dβ hj
        cases j with
        | zero => simpa using ha
        | succ j =>
          simp only [List.getD_cons_succ]
          exact hget j dα dβ (Nat.lt_of_succ_lt_succ hj)

theorem getD_map {α β : Type} (f : α → β) :
    ∀ (l : List α) (i : Nat) (d : α) (d' : β), i < l.length →
      (l.map f).getD i d' = f (l.getD i d) := by
  intro l
  induction l with
  | nil => intro i d d' h; cases h
  | cons a l ih =>
    intro i d d' h
    cases i with
    | zero => simp
    | succ i => simpa using ih i d d' (Nat.lt_of_succ_lt_succ h)

theorem zip_getD {α β : Type} :
    ∀ (l₁ : List α) (l₂ : List β) (j : Nat) (da : α) (db : β),
      j < l₁.length → j < l₂.length →
      (l₁.zip l₂).getD j (da, db) = (l₁.getD j da, l₂.getD j db) := by
  intro l₁
  induction l₁ with
  | nil => intro l₂ j da db h₁ _; cases h₁
  | cons a l₁ ih =>
    intro l₂ j da db h₁ h₂
    cases l₂ with
    | nil => cases h₂
    | cons b l₂ =>
      cases j with
      | zero => simp [List.zip_cons_cons]
      | succ j =>
        simp only [List.zip_cons_cons, List.getD_cons_succ]
        exact ih l₂ j da db (Nat.lt_of_succ_lt_succ h₁) (Nat.lt_of_succ_lt_succ h₂)

/-- The token list underlying a parse. -/
theorem parseSql_fields (sql : String) :
    (parseSql sql).paramRefs = (buildRefs (scanSql sql.data).1 0).1 ∧
    (parseSql sql).paramTypes = (buildRefs (scanSql sql.data).1 0).2 := by
  rcases hscan : scanSql sql.data with ⟨toks, clean⟩
  constructor <;> simp [parseSql, hscan]

/-- The argument list bound for one row container (defaulting to `[]` on the
paths where `makeArgs` throws, which the success hypotheses exclude). -/
def rowArgs (op : Op) (prior : List JVal) (row : JVal) : List JVal :=
  (makeArgs op.paramRefs op.paramTypes row prior).toOption.getD []

/-- The affected-row count one row container contributes (`0` on the error
paths, which the success hypotheses exclude). -/
def rowAffected (d : Driver) (op : Op) (prior : List JVal) (row : JVal) : ℚ :=
  match makeArgs op.paramRefs op.paramTypes row prior with
  | .error _ => 0
  | .ok args =>
    match d.execRes op.sql args with
    | .error _ => 0
    | .ok res => affectedRowsOf res

theorem execLoop_ok (d : Driver) (op : Op) (prior : List JVal) :
    ∀ (rows : List JVal) (acc : ℚ),
      (∀ row ∈ rows, ∃ args v,
        makeArgs op.paramRefs op.paramTypes row prior = .ok args ∧
        d.execRes op.sql args = .ok v) →
      execLoop d op prior rows acc =
        (rows.map fun row => .exec op.sql (rowArgs op prior row),
         .ok (acc + (rows.map (rowAffected d op prior)).sum)) := by
  intro rows
  induction rows with
  | nil => intro acc _; simp [execLoop]
  | cons row rows ih =>
    intro acc hok
    obtain ⟨args, v, hargs, hexec⟩ := hok row (List.mem_cons_self row rows)
    have hrest : ∀ r ∈ rows, ∃ args v,
        makeArgs op.paramRefs op.paramTypes r prior = .ok args ∧
        d.execRes op.sql args = .ok v :=
      fun r hr => hok r (List.mem_cons_of_mem row hr)
    rw [execLoop, hargs]
    dsimp only
    rw [hexec]
    dsimp only
    rw [ih (acc + affectedRowsOf v) hrest]
    have h1 : rowArgs op prior row = args := by
      simp [rowArgs, hargs, Except.toOption]
    have h2 : rowAffected d op prior row = affectedRowsOf v := by
      simp [rowAffected, hargs, hexec]
    simp only [List.map_cons, List.sum_cons, h1, h2, Prod.mk.injEq]
    refine ⟨trivial, ?_⟩
    congr 1
    ring

/-- A statement-execution event (as opposed to pool/transaction/connection
management). -/
def Ev.isExec : Ev → Bool
  | .exec _ _ => true
  | _ => false

/-- The commit-mode operation as constructed by `doFinale`. -/
def setCommitOp (bT : Bool) : Op :=
  getOp (doAction .e (setCommitSql bT) .jnull .jnull)

theorem setCommitOp_ok (bT : Bool) :
    doAction .e (setCommitSql bT) .jnull .jnull = .ok (setCommitOp bT) := by
  cases bT <;> with_unfolding_all rfl

theorem execLoop_trace (d : Driver) (op : Op) (prior : List JVal) :
    ∀ (rows : List JVal) (acc : ℚ) (ev : Ev),
      ev ∈ (execLoop d op prior rows acc).1 → ev.isExec = true := by
  intro rows
  induction rows with
  | nil => intro acc ev h; simp [execLoop] at h
  | cons row rows ih =>
    intro acc ev h
    rw [execLoop] at h
    cases hargs : makeArgs op.paramRefs op.paramTypes row prior with
    | error e => rw [hargs] at h; simp at h
    | ok args =>
      rw [hargs] at h
      dsimp only at h
      cases hexec : d.execRes op.sql args with
      | error e =>
        rw [hexec] at h
        simp at h
        subst h
        rfl
      | ok res =>
        rw [hexec] at h
        dsimp only at h
        simp at h
        rcases h with h | h
        · subst h; rfl
        · exact ih _ ev h

theorem queryLoop_trace (d : Driver) (op : Op) (prior : List JVal) :
    ∀ (rows : List JVal) (ev : Ev),
      ev ∈ (queryLoop d op prior rows).1 → ev.isExec = true := by
  intro rows
  induction rows with
  | nil => intro ev h; simp [queryLoop] at h
  | cons row rows ih =>
    intro ev h
    rw [queryLoop] at h
    cases hargs : makeArgs op.paramRefs op.paramTypes row prior with
    | error e => rw [hargs] at h; simp at h
    | ok args =>
      rw [hargs] at h
      dsimp only at h
      cases hexec : d.execRes op.sql args with
      | error e =>
        rw [hexec] at h
        simp at h
        subst h
        rfl
      | ok res =>
        rw [hexec] at h
        dsimp only at h
        simp at h
        rcases h with h | h
        · subst h; rfl
        · exact ih ev h

theorem runOp_trace (d : Driver) (op : Op) (prior : List JVal) (ev : Ev)
    (h : ev ∈ (runOp d op prior).1) : ev.isExec = true := by
  rw [runOp] at h
  by_cases hop : op.opcode = .e
  · rw [if_pos hop] at h
    exact execLoop_trace d op prior _ 0 ev (by
      rw [doExecuteM] at h
      rcases hsplit : execLoop d op prior (rowContainers op) 0 with ⟨tr, out⟩
      rw [hsplit] at h
      simpa [hsplit] using h)
  · rw [if_neg hop] at h
    rw [doQueryM] at h
    rcases hsplit : queryLoop d op prior (rowContainers op) with ⟨tr, out⟩
    rw [hsplit] at h
    dsimp only at h
    exact queryLoop_trace d op prior (rowContainers op) ev (by rw [hsplit]; exact h)

theorem runOps_trace (d : Driver) :
    ∀ (ops : List Op) (acc : List JVal) (ev : Ev),
      ev ∈ (runOps d ops acc).1 → ev.isExec = true := by
  intro ops
  induction ops with
  | nil => intro acc ev h; simp [runOps] at h
  | cons op rest ih =>
    intro acc ev h
    rw [runOps] at h
    rcases hop : runOp d op acc with ⟨tr, out⟩
    rw [hop] at h
    cases out with
    | error e =>
      dsimp only at h
      exact runOp_trace d op acc ev (by rw [hop]; exact h)
    | ok v =>
      dsimp only at h
      rcases hrest : runOps d rest (acc ++ [v]) with ⟨tr', res, err⟩
      rw [hrest] at h
      dsimp only at h
      simp at h
      rcases h with h | h
      · exact runOp_trace d op acc ev (by rw [hop]; exact h)
      · exact ih (acc ++ [v]) ev (by rw [hrest]; exact h)

theorem runOps_error_append (d : Driver) :
    ∀ (ops post : List Op) (acc : List JVal) (tr : List Ev)
      (res : List JVal) (e : Err),
      runOps d ops acc = (tr, res, some e) →
      runOps d (ops ++ post) acc = (tr, res, some e) := by
  intro ops
  induction ops with
  | nil =>
    intro post acc tr res e h
    simp [runOps] at h
  | cons op rest ih =>
    intro post acc tr res e h
    rw [List.cons_append]
    rw [runOps] at h ⊢
    rcases hop : runOp d op acc with ⟨tr₁, out⟩
    rw [hop] at h
    cases out with
    | error e' => exact h
    | ok v =>
      dsimp only at h ⊢
      rcases hrest : runOps d rest (acc ++ [v]) with ⟨tr', res', err⟩
      rw [hrest] at h
      dsimp only at h
      simp only [Prod.mk.injEq] at h
      obtain ⟨h1, h2, h3⟩ := h
      subst h3
      rw [ih post (acc ++ [v]) tr' res' e hrest]
      simp [h1, h2]

theorem runOps_ok_spec (d : Driver) :
    ∀ (ops : List Op) (acc : List JVal) (tr : List Ev) (res : List JVal),
      runOps d ops acc = (tr, res, none) →
      ∃ news : List JVal, res = acc ++ news ∧ news.length = ops.length ∧
        ∀ j, j < ops.length →
          ∃ trj, runOp d (ops.getD j default) (acc ++ news.take j) =
            (trj, .ok (news.getD j .jnull)) := by
  intro ops
  induction ops with
  | nil =>
    intro acc tr res h
    simp only [runOps, Prod.mk.injEq] at h
    exact ⟨[], by simp [← h.2.1], rfl, fun j hj => absurd hj (by simp)⟩
  | cons op rest ih =>
    intro acc tr res h
    rw [runOps] at h
    rcases hop : runOp d op acc with ⟨tr₁, out⟩
    rw [hop] at h
    cases out with
    | error e =>
      dsimp only at h
      simp only [Prod.mk.injEq] at h
      exact (Option.some_ne_none e h.2.2).elim
    | ok v =>
      dsimp only at h
      rcases hrest : runOps d rest (acc ++ [v]) with ⟨tr', res', err⟩
      rw [hrest] at h
      dsimp only at h
      simp only [Prod.mk.injEq] at h
      obtain ⟨-, h2, h3⟩ := h
      subst h2
      cases err with
      | some e => cases h3
      | none =>
        obtain ⟨news', hres, hlen, hget⟩ := ih (acc ++ [v]) tr' res' hrest
        refine ⟨v :: news', by simpa using hres, by simpa using hlen, ?_⟩
        intro j hj
        cases j with
        | zero =>
          refine ⟨tr₁, ?_⟩
          simpa using hop
        | succ j =>
          have hj' := hget j (Nat.lt_of_succ_lt_succ hj)
          simp only [List.getD_cons_succ, List.take_succ_cons]
          rw [show acc ++ v :: news'.take j = (acc ++ [v]) ++ news'.take j by simp]
          exact hj'

theorem execLoop_execRes (d d' : Driver) (hex : d.execRes = d'.execRes)
    (op : Op) (prior : List JVal) :
    ∀ (rows : List JVal) (acc : ℚ),
      execLoop d op prior rows acc = execLoop d' op prior rows acc := by
  intro rows
  induction rows with
  | nil => intro acc; rfl
  | cons row rows ih =>
    intro acc
    rw [execLoop, execLoop, hex]
    cases makeArgs op.paramRefs op.paramTypes row prior with
    | error e => rfl
    | ok args =>
      dsimp only
      cases d'.execRes op.sql args with
      | error e => rfl
      | ok res =>
        dsimp only
        rw [ih]

theorem queryLoop_execRes (d d' : Driver) (hex : d.execRes = d'.execRes)
    (op : Op) (prior : List JVal) :
    ∀ rows : List JVal,
      queryLoop d op prior rows = queryLoop d' op prior rows := by
  intro rows
  induction rows with
  | nil => rfl
  | cons row rows ih =>
    rw [queryLoop, queryLoop, hex]
    cases makeArgs op.paramRefs op.paramTypes row prior with
    | error e => rfl
    | ok args =>
      dsimp only
      cases d'.execRes op.sql args with
      | error e => rfl
      | ok res =>
        dsimp only
        rw [ih]

theorem doExecuteM_execRes (d d' : Driver) (hex : d.execRes = d'.execRes) :
    doExecuteM d = doExecuteM d' := by
  funext op prior
  rw [doExecuteM, doExecuteM, execLoop_execRes d d' hex]

theorem runOp_execRes (d d' : Driver) (hex : d.execRes = d'.execRes) :
    runOp d = runOp d' := by
  funext op prior
  rw [runOp, runOp, doExecuteM_execRes d d' hex, doQueryM, doQueryM,
    queryLoop_execRes d d' hex]

theorem runOps_execRes (d d' : Driver) (hex : d.execRes = d'.execRes) :
    runOps d = runOps d' := by
  funext ops
  induction ops with
  | nil => rfl
  | cons op rest ih =>
    funext acc
    rw [runOps, runOps, runOp_execRes d d' hex]
    cases runOp d' op acc with
    | mk tr out =>
      cases out with
      | error e => rfl
      | ok v =>
        dsimp only
        rw [congrFun ih (acc ++ [v])]

/-- Computation of `doFinale` along the path where the pool, the connection
and the commit-mode statement all succeed (and, when transactional, the
transaction begin succeeds). -/
theorem doFinale_run (d : Driver) (ops : List Op) (bT : Bool)
    (hpool : d.poolRes = .ok ()) (hconn : d.connRes = .ok ())
    (q : ℚ) (hq : (doExecuteM d (setCommitOp bT) []).2 = .ok q)
    (hbegin : bT = true → d.beginRes = .ok ()) :
    doFinale false true ⟨ops, false⟩ true bT d =
      (if bT then
        (match (runOps d ops []).2.2 with
         | some e =>
           ([Ev.getPool, Ev.getConn] ++ (doExecuteM d (setCommitOp bT) []).1 ++
              [Ev.beginTx] ++ (runOps d ops []).1 ++ [Ev.rollback, Ev.release],
            .callback (some e)
              (if ops.length = 1 then (runOps d ops []).2.1.getD 0 .jnull
               else .jarr (runOps d ops []).2.1),
            ⟨ops, true⟩)
         | none =>
           ([Ev.getPool, Ev.getConn] ++ (doExecuteM d (setCommitOp bT) []).1 ++
              [Ev.beginTx] ++ (runOps d ops []).1 ++
              [Ev.commit, Ev.rollback, Ev.release],
            .callback (match d.commitRes with
                       | .error e => some e
                       | .ok _ => none)
              (if ops.length = 1 then (runOps d ops []).2.1.getD 0 .jnull
               else .jarr (runOps d ops []).2.1),
            ⟨ops, true⟩))
       else
        ([Ev.getPool, Ev.getConn] ++ (doExecuteM d (setCommitOp bT) []).1 ++
           (runOps d ops []).1 ++ [Ev.release],
         .callback ((runOps d ops []).2.2)
           (if ops.length = 1 then (runOps d ops []).2.1.getD 0 .jnull
            else .jarr (runOps d ops []).2.1),
         ⟨ops, true⟩)) := by
  rcases hsc : doExecuteM d (setCommitOp bT) [] with ⟨setTr, setRes⟩
  rw [hsc] at hq
  dsimp only at hq
  subst hq
  rcases hrun : runOps d ops [] with ⟨opsTr, results, errOpt⟩
  cases bT with
  | false =>
    rw [doFinale]
    simp only [Bool.not_true, Bool.not_false, if_true, if_false, ite_true,
      ite_false, Bool.false_eq_true, Bool.true_eq_false]
    simp only [hpool, hconn, setCommitOp_ok false, hsc, hrun]
  | true =>
    rw [doFinale]
    simp only [Bool.not_true, Bool.not_false, if_true, if_false, ite_true,
      ite_false, Bool.false_eq_true, Bool.true_eq_false]
    simp only [hpool, hconn, setCommitOp_ok true, hsc, hbegin rfl, hrun]
    cases errOpt with
    | some e => rfl
    | none =>
      cases hcm : d.commitRes with
      | error e => rfl
      | ok u => rfl

/- ## Claim theorems -/

/-- C5: for every input SQL string, the placeholder parser produces clean SQL
in which every `:identifier`, `?`, and `$digits` token is replaced by the
generic bind marker `?` (every `?` of the clean SQL is one token), together
with two parallel lists of equal length, ordered by the tokens'
left-to-right textual positions, where a `:` token yields its name string, a
`$` token yields the referenced prior-operation index as a number, and a `?`
token yields a 0-based positional index (its index among all tokens). -/
theorem claim5_parser_parallel_outputs (sql : String) :
    (parseSql sql).paramRefs.length = (parseSql sql).paramTypes.length ∧
    (parseSql sql).paramTypes = ((scanSql sql.data).1).map charOfTok ∧
    (∀ i, i < ((scanSql sql.data).1).length →
      (parseSql sql).paramRefs.getD i (.idx 0) =
        refOfTok i (((scanSql sql.data).1).getD i .pos)) ∧
    (parseSql sql).sql = String.mk ((scanSql sql.data).2) ∧
    ((parseSql sql).sql.data.count '?') = (parseSql sql).paramRefs.length := by
  rcases hscan : scanSql sql.data with ⟨toks, clean⟩
  have hp : parseSql sql =
      { rawSql := sql, sql := String.mk clean,
        paramRefs := (buildRefs toks 0).1, paramTypes := (buildRefs toks 0).2,
        bindStyles := stylesOf toks } := by
    simp [parseSql, hscan]
  have hcount := scanSql_count sql.data
  rw [hscan] at hcount
  refine ⟨?_, ?_, ?_, ?_, ?_⟩
  · rw [hp]; simp [buildRefs_length, buildRefs_types]
  · rw [hp]; simp [buildRefs_types]
  · intro i h2
    rw [hp]
    simpa using buildRefs_getD toks 0 i h2
  · rw [hp]
  · rw [hp]
    simpa [buildRefs_length] using hcount

theorem claim5_witness :
    (parseSql "insert into t values (:id, ?, $3)").paramRefs.length =
      (parseSql "insert into t values (:id, ?, $3)").paramTypes.length ∧
    (1 : Nat) < ((scanSql "insert into t values (:id, ?, $3)".data).1).length ∧
    (parseSql "insert into t values (:id, ?, $3)").paramRefs.getD 1 (.idx 0) =
      .idx 1 := by
  refine ⟨(claim5_parser_parallel_outputs _).1, by decide, ?_⟩
  have h := (claim5_parser_parallel_outputs "insert into t values (:id, ?, $3)").2.2.1
    1 (by decide)
  rw [h]
  decide

/-- C6: every SQL statement containing at least one `:identifier` token and
at least one `?` token (that is, the parse records both bind styles) makes
Operation construction fail for each of the five constructors with the
mixed-style UsageError, synchronously — `doAction` is a pure function and no
driver is involved before finalization. -/
theorem claim6_mixed_styles_error (sql : String) (params dflt : JVal)
    (hc : (parseSql sql).bindStyles.colon = true)
    (hq : (parseSql sql).bindStyles.qmark = true) :
    execute sql params = .error (.mixedStyles sql) ∧
    query sql params = .error (.mixedStyles sql) ∧
    queryInt sql params dflt = .error (.mixedStyles sql) ∧
    queryFloat sql params dflt = .error (.mixedStyles sql) ∧
    queryString sql params dflt = .error (.mixedStyles sql) ∧
    Err.isUsage (.mixedStyles sql) = true := by
  have hne : sql.isEmpty = false := by
    by_contra h
    have hemp : sql = "" := by
      cases sql with
      | mk l =>
        cases l with
        | nil => rfl
        | cons c cs =>
          simp [String.isEmpty, String.endPos, String.utf8ByteSize] at h
          have hpos := Char.utf8Size_pos c
          have := congrArg String.Pos.byteIdx h
          simp at this
          omega
    rw [hemp] at hc
    simp [parseSql, scanSql, scanSqlGo, stylesOf] at hc
  have key : ∀ (oc : Opcode) (dv : JVal),
      doAction oc sql params dv = .error (.mixedStyles sql) := by
    intro oc dv
    unfold doAction
    simp [hne, hc, hq]
  exact ⟨key .e .jnull, key .q .jnull, key .qi dflt, key .qf dflt, key .qs dflt, rfl⟩

/-- C10: when cross-reference `$n` tokens are combined with positional `?`
tokens, each `?` token binds the element of the explicit parameter container
at the token's index among ALL placeholder tokens of the statement (the
index `i` below ranges over the whole `paramTypes` list, in which `$` tokens
also appear), not its index among the `?` tokens alone. -/
theorem claim10_positional_binding (sql : String) (xs prior args : List JVal)
    (i : Nat) (hi : i < (parseSql sql).paramTypes.length)
    (hty : (parseSql sql).paramTypes.getD i ' ' = '?')
    (hargs : makeArgs (parseSql sql).paramRefs (parseSql sql).paramTypes
      (.jarr xs) prior = .ok args) :
    args.getD i .jnull = xs.getD i .jnull := by
  obtain ⟨hrefs, htypes⟩ := parseSql_fields sql
  set toks := (scanSql sql.data).1 with htoks
  have hlenR : (parseSql sql).paramRefs.length = toks.length := by
    rw [hrefs, buildRefs_length]
  have hlenT : (parseSql sql).paramTypes.length = toks.length := by
    rw [htypes, buildRefs_types, List.length_map]
  have hitoks : i < toks.length := hlenT ▸ hi
  -- the i-th token is a positional token
  have htychar : charOfTok (toks.getD i .pos) = '?' := by
    have heq : (parseSql sql).paramTypes.getD i ' ' = charOfTok (toks.getD i .pos) := by
      rw [htypes, buildRefs_types]
      exact getD_map charOfTok toks i .pos ' ' hitoks
    rw [← heq, hty]
  have hpos : toks.getD i .pos = .pos := by
    cases h : toks.getD i .pos with
    | named s => rw [h] at htychar; cases htychar
    | cross n => rw [h] at htychar; cases htychar
    | pos => rfl
  -- the i-th reference is the global token index
  have hrefi : (parseSql sql).paramRefs.getD i (.idx 0) = .idx i := by
    rw [hrefs, buildRefs_getD toks 0 i hitoks, hpos]
    simp [refOfTok]
  -- unfold makeArgs on the array container
  rw [makeArgs] at hargs
  have hexp : (if (JVal.jarr xs).isNull = true then JVal.jarr [] else JVal.jarr xs) =
      JVal.jarr xs := rfl
  rw [hexp] at hargs
  rw [if_neg (by rw [hlenR, hlenT]; simp)] at hargs
  have hziplen : i < ((parseSql sql).paramRefs.zip (parseSql sql).paramTypes).length := by
    rw [List.length_zip]
    omega
  obtain ⟨hlen, hget⟩ := bindAll_ok_spec _ prior _ args hargs
  have hbind := hget i (.idx 0, ' ') .jnull hziplen
  rw [zip_getD (parseSql sql).paramRefs (parseSql sql).paramTypes i (.idx 0) ' '
    (by omega) (by omega), hrefi, hty] at hbind
  simp only [bindOne, jsLookup] at hbind
  exact (Except.ok.injEq _ _).mp hbind.symm

theorem claim10_witness :
    (1 : Nat) < (parseSql "insert into u values ($0, ?)").paramTypes.length ∧
    (parseSql "insert into u values ($0, ?)").paramTypes.getD 1 ' ' = '?' ∧
    makeArgs (parseSql "insert into u values ($0, ?)").paramRefs
      (parseSql "insert into u values ($0, ?)").paramTypes
      (.jarr [.jstr "x", .jstr "y"]) [.jnum 7] =
      .ok [.jnum 7, .jstr "y"] ∧
    [JVal.jnum 7, JVal.jstr "y"].getD 1 .jnull = .jstr "y" := by
  refine ⟨by decide, by decide, by with_unfolding_all rfl, ?_⟩
  exact claim10_positional_binding "insert into u values ($0, ?)"
    [.jstr "x", .jstr "y"] [.jnum 7] [.jnum 7, .jstr "y"] 1
    (by decide) (by decide) (by with_unfolding_all rfl)

/-- C1: for every Stage whose finalization succeeds (pool, connection,
commit-mode statement, transaction begin/commit when transactional, and
every Operation succeed), the callback receives `null` for the error and:
the single Operation's bare result when the Stage holds exactly one
Operation, else the array of exactly `ops.length` results whose `j`-th
element is the result of running the `j`-th Operation on the results of the
first `j` (Stage order). -/
theorem claim1_final_result_shape (d : Driver) (ops : List Op) (bT : Bool)
    (opsTr : List Ev) (results : List JVal)
    (hpool : d.poolRes = .ok ())
    (hconn : d.connRes = .ok ())
    (hset : ∃ q, (doExecuteM d (setCommitOp bT) []).2 = .ok q)
    (hbegin : bT = true → d.beginRes = .ok ())
    (hcommit : bT = true → d.commitRes = .ok ())
    (hrun : runOps d ops [] = (opsTr, results, none)) :
    (doFinale false true ⟨ops, false⟩ true bT d).2.1 =
      .callback none
        (if ops.length = 1 then results.getD 0 .jnull else .jarr results) ∧
    results.length = ops.length ∧
    (∀ j, j < ops.length →
      ∃ trj, runOp d (ops.getD j default) (results.take j) =
        (trj, .ok (results.getD j .jnull))) := by
  obtain ⟨news, hres, hlen, hget⟩ := runOps_ok_spec d ops [] opsTr results hrun
  simp only [List.nil_append] at hres
  subst hres
  obtain ⟨q, hq⟩ := hset
  refine ⟨?_, hlen, fun j hj => by simpa using hget j hj⟩
  rw [doFinale_run d ops bT hpool hconn q hq hbegin]
  cases bT with
  | false => simp [hrun]
  | true => simp [hrun, hcommit rfl]

theorem claim1_witness :
    countDriver.poolRes = .ok () ∧
    runOps countDriver [insertOp, countOp] [] =
      ((runOps countDriver [insertOp, countOp] []).1, [.jnum 4, .jnum 4], none) ∧
    (doFinale false true ⟨[insertOp, countOp], false⟩ true true countDriver).2.1 =
      .callback none (.jarr [.jnum 4, .jnum 4]) ∧
    (doFinale false true ⟨[countOp], false⟩ true true countDriver).2.1 =
      .callback none (.jnum 4) := by
  refine ⟨rfl, by with_unfolding_all rfl, ?_, ?_⟩
  · have h := (claim1_final_result_shape countDriver [insertOp, countOp] true
      (runOps countDriver [insertOp, countOp] []).1 [.jnum 4, .jnum 4]
      rfl rfl ⟨1, by with_unfolding_all rfl⟩ (fun _ => rfl) (fun _ => rfl)
      (by with_unfolding_all rfl)).1
    simpa using h
  · have h := (claim1_final_result_shape countDriver [countOp] true
      (runOps countDriver [countOp] []).1 [.jnum 4]
      rfl rfl ⟨1, by with_unfolding_all rfl⟩ (fun _ => rfl) (fun _ => rfl)
      (by with_unfolding_all rfl)).1
    simpa using h

/-- C2: for every finalization in which some Operation's execution fails
(the sequential run of the queued operations stops with an error after the
prefix `ops`): no later Operation is executed (the trace and results are
those of `ops` alone, whatever `post` is queued behind the failing
Operation); the callback receives exactly the original error; a rollback
appears in the trace iff a transaction had been started, never in
autocommit mode; the outcome is unchanged under any rollback-failure
(`doFinale` never reads `rollbackRes`); and whenever pool and connection
were acquired the connection is released — on success, mid-batch failure,
commit failure, or rollback failure alike. -/
theorem claim2_failure_semantics :
    (∀ (d : Driver) (ops post : List Op) (bT : Bool) (opsTr : List Ev)
       (results : List JVal) (e : Err),
      d.poolRes = .ok () → d.connRes = .ok () →
      (∃ q, (doExecuteM d (setCommitOp bT) []).2 = .ok q) →
      (bT = true → d.beginRes = .ok ()) →
      runOps d ops [] = (opsTr, results, some e) →
      doFinale false true ⟨ops ++ post, false⟩ true bT d =
        ([Ev.getPool, Ev.getConn] ++ (doExecuteM d (setCommitOp bT) []).1 ++
           (if bT then [Ev.beginTx] else []) ++ opsTr ++
           (if bT then [Ev.rollback] else []) ++ [Ev.release],
         .callback (some e)
           (if (ops ++ post).length = 1 then results.getD 0 .jnull
            else .jarr results),
         ⟨ops ++ post, true⟩) ∧
      (bT = false →
        Ev.rollback ∉ (doFinale false true ⟨ops ++ post, false⟩ true bT d).1)) ∧
    (∀ (d : Driver) (st : StageState) (bT : Bool) (x : Except Err Unit),
      doFinale false true st true bT { d with rollbackRes := x } =
        doFinale false true st true bT d) ∧
    (∀ (d : Driver) (st : StageState) (bT : Bool),
      st.finaleComplete = false →
      d.poolRes = .ok () → d.connRes = .ok () →
      Ev.release ∈ (doFinale false true st true bT d).1) := by
  refine ⟨?_, ?_, ?_⟩
  · intro d ops post bT opsTr results e hpool hconn hset hbegin hrun
    obtain ⟨q, hq⟩ := hset
    have hrun' : runOps d (ops ++ post) [] = (opsTr, results, some e) :=
      runOps_error_append d ops post [] opsTr results e hrun
    have hmain := doFinale_run d (ops ++ post) bT hpool hconn q hq hbegin
    rw [hrun'] at hmain
    constructor
    · rw [hmain]
      cases bT with
      | false => simp
      | true => simp
    · intro hbF
      subst hbF
      have htr : (doFinale false true ⟨ops ++ post, false⟩ true false d).1 =
          [Ev.getPool, Ev.getConn] ++ (doExecuteM d (setCommitOp false) []).1 ++
            opsTr ++ [Ev.release] := by
        rw [hmain]
        rfl
      rw [htr]
      intro hmem
      rcases List.mem_append.mp hmem with hmem2 | h
      case inr => simp at h
      rcases List.mem_append.mp hmem2 with hmem3 | h
      case inr =>
        have hx := runOps_trace d (ops ++ post) [] Ev.rollback
          (by rw [hrun']; exact h)
        simp [Ev.isExec] at hx
      rcases List.mem_append.mp hmem3 with h | h
      · simp at h
      · have hx := execLoop_trace d (setCommitOp false) []
          (rowContainers (setCommitOp false)) 0 Ev.rollback h
        simp [Ev.isExec] at hx
  · intro d st bT x
    have h1 : doExecuteM { d with rollbackRes := x } = doExecuteM d :=
      doExecuteM_execRes _ _ rfl
    have h2 : runOps { d with rollbackRes := x } = runOps d :=
      runOps_execRes _ _ rfl
    simp only [doFinale, h1, h2]
  · intro d st bT hfc hpool hconn
    rw [doFinale]
    simp only [hfc, hpool, hconn, Bool.not_true, if_true, if_false, ite_true,
      ite_false, Bool.false_eq_true, Bool.true_eq_false]
    cases bT with
    | false =>
      simp only [setCommitOp_ok false]
      generalize doExecuteM d (setCommitOp false) [] = p
      obtain ⟨setTr, setRes⟩ := p
      cases setRes <;> simp
    | true =>
      simp only [setCommitOp_ok true]
      generalize doExecuteM d (setCommitOp true) [] = p
      obtain ⟨setTr, setRes⟩ := p
      cases setRes with
      | error e => simp
      | ok u =>
        dsimp only
        cases hb : d.beginRes with
        | error e => simp
        | ok u' =>
          generalize runOps d st.ops [] = r
          obtain ⟨opsTr, results, errOpt⟩ := r
          cases errOpt with
          | some e => simp
          | none =>
            dsimp only
            cases d.commitRes <;> simp

theorem claim2_witness :
    runOps failDriver [insertOp, countOp] [] =
      ((runOps failDriver [insertOp, countOp] []).1, [.jnum 4], some (.driver 7)) ∧
    (doFinale false true ⟨[insertOp, countOp, insertOp], false⟩ true true
        failDriver).2.1 = .callback (some (.driver 7)) (.jarr [.jnum 4]) ∧
    Ev.release ∈
      (doFinale false true ⟨[insertOp, countOp, insertOp], false⟩ true true
        failDriver).1 := by
  refine ⟨by with_unfolding_all rfl, ?_, ?_⟩
  · have h := ((claim2_failure_semantics.1 failDriver [insertOp, countOp]
      [insertOp] true (runOps failDriver [insertOp, countOp] []).1
      [.jnum 4] (.driver 7) rfl rfl ⟨1, by with_unfolding_all rfl⟩
      (fun _ => rfl) (by with_unfolding_all rfl)).1)
    rw [show ([insertOp, countOp] ++ [insertOp] : List Op) =
      [insertOp, countOp, insertOp] from rfl] at h
    rw [h]
    rfl
  · exact claim2_failure_semantics.2.2 failDriver
      ⟨[insertOp, countOp, insertOp], false⟩ true rfl rfl rfl

/-- C3: for every multi-row Execute Operation (`isMulti`, array-of-arrays or
array-of-objects container) whose per-element executions all succeed, the
statement is executed once per container element in array order (the trace
is exactly one `exec` event per element, in order) and the Operation's
result is the sum of the per-element affected-row counts. -/
theorem claim3_multirow_execute_sum (d : Driver) (op : Op) (prior : List JVal)
    (rows : List JVal) (hm : op.isMulti = true)
    (hrows : op.paramVals = .jarr rows)
    (hok : ∀ row ∈ rows, ∃ args v,
      makeArgs op.paramRefs op.paramTypes row prior = .ok args ∧
      d.execRes op.sql args = .ok v) :
    doExecuteM d op prior =
      (rows.map fun row => .exec op.sql (rowArgs op prior row),
       .ok ((rows.map (rowAffected d op prior)).sum)) := by
  have hcont : rowContainers op = rows := by
    simp [rowContainers, hm, hrows]
  rw [doExecuteM, hcont, execLoop_ok d op prior rows 0 hok]
  simp

theorem claim3_witness :
    insertOp.isMulti = true ∧
    insertOp.paramVals =
      .jarr [.jarr [.jnum 1], .jarr [.jnum 2], .jarr [.jnum 3], .jarr [.jnum 4]] ∧
    (doExecuteM okDriver insertOp []).2 = .ok 4 := by
  refine ⟨by with_unfolding_all rfl, by with_unfolding_all rfl, ?_⟩
  have h := claim3_multirow_execute_sum okDriver insertOp []
    [.jarr [.jnum 1], .jarr [.jnum 2], .jarr [.jnum 3], .jarr [.jnum 4]]
    (by with_unfolding_all rfl) (by with_unfolding_all rfl)
    (by
      intro row hrow
      fin_cases hrow <;>
        exact ⟨_, _, by with_unfolding_all rfl, by with_unfolding_all rfl⟩)
  rw [h]
  with_unfolding_all rfl

/-- C4: for every `QueryInt` or `QueryFloat` Operation the result is
computed from only the first column of the first row; a missing result set,
an empty result set, or a null/missing first value yields the
caller-supplied default; for `QueryInt` a non-integral value whose text form
does not parse to an integer yields the default; for `QueryFloat` a NaN or
unparsable value yields the default; otherwise the (possibly parsed)
numeric value is returned. -/
theorem claim4_scalar_coercion (op : Op) (k : String) (vl : JVal)
    (fs : List (String × JVal)) (rest : List JVal) :
    (op.opcode ≠ .q →
      formatResult op (.jarr (.jobj ((k, vl) :: fs) :: rest)) =
        formatResult op (.jarr [.jobj [(k, vl)]])) ∧
    (op.opcode ≠ .q →
      formatResult op .jnull = op.dflt ∧
      formatResult op (.jarr []) = op.dflt ∧
      formatResult op (.jarr (.jobj [] :: rest)) = op.dflt) ∧
    (op.opcode ≠ .q → vl.isNull = true →
      formatResult op (.jarr (.jobj ((k, vl) :: fs) :: rest)) = op.dflt) ∧
    (op.opcode = .qi → vl.isNull = false →
      (∀ q : ℚ, vl = .jnum q → q.den = 1 →
        formatResult op (.jarr (.jobj ((k, vl) :: fs) :: rest)) = .jnum q) ∧
      ((∀ q : ℚ, vl = .jnum q → q.den ≠ 1) →
        (parseFloatJs (jsToString vl) = none →
          formatResult op (.jarr (.jobj ((k, vl) :: fs) :: rest)) = op.dflt) ∧
        (∀ q' : ℚ, parseFloatJs (jsToString vl) = some q' → q'.den ≠ 1 →
          formatResult op (.jarr (.jobj ((k, vl) :: fs) :: rest)) = op.dflt) ∧
        (∀ q' : ℚ, parseFloatJs (jsToString vl) = some q' → q'.den = 1 →
          formatResult op (.jarr (.jobj ((k, vl) :: fs) :: rest)) = .jnum q'))) ∧
    (op.opcode = .qf → vl.isNull = false →
      (∀ q : ℚ, vl = .jnum q →
        formatResult op (.jarr (.jobj ((k, vl) :: fs) :: rest)) = .jnum q) ∧
      (vl = .jnan →
        formatResult op (.jarr (.jobj ((k, vl) :: fs) :: rest)) = op.dflt) ∧
      ((∀ q : ℚ, vl ≠ .jnum q) →
        (parseFloatJs (jsToString vl) = none →
          formatResult op (.jarr (.jobj ((k, vl) :: fs) :: rest)) = op.dflt) ∧
        (∀ q' : ℚ, parseFloatJs (jsToString vl) = some q' →
          formatResult op (.jarr (.jobj ((k, vl) :: fs) :: rest)) = .jnum q'))) := by
  have hfmt : op.opcode ≠ .q →
      formatResult op (.jarr (.jobj ((k, vl) :: fs) :: rest)) =
        if vl.isNull then op.dflt else coerceScalar op.opcode op.dflt vl := by
    intro h
    simp [formatResult, h, jsFalsy, jsLengthTruthy, jsIndex0, jsFirstProp]
  refine ⟨?_, ?_, ?_, ?_, ?_⟩
  · intro h
    rw [hfmt h]
    simp [formatResult, h, jsFalsy, jsLengthTruthy, jsIndex0, jsFirstProp]
  · intro h
    refine ⟨?_, ?_, ?_⟩ <;>
      simp [formatResult, h, jsFalsy, jsLengthTruthy, jsIndex0, jsFirstProp]
  · intro h hnull
    rw [hfmt h, if_pos hnull]
  · intro hqi hnn
    have hne : op.opcode ≠ .q := by rw [hqi]; intro h; cases h
    constructor
    · intro q hv hq
      rw [hfmt hne, if_neg (by simp [hnn]), hqi, hv]
      simp [coerceScalar, hq]
    · intro hni
      have hco : formatResult op (.jarr (.jobj ((k, vl) :: fs) :: rest)) =
          qiParse op.dflt vl := by
        rw [hfmt hne, if_neg (by simp [hnn]), hqi]
        cases vl with
        | jnum q =>
          have := hni q rfl
          simp [coerceScalar, this]
        | jnull => cases hnn
        | _ => simp [coerceScalar]
      refine ⟨?_, ?_, ?_⟩
      · intro hp; rw [hco]; simp [qiParse, hp]
      · intro q' hp hd; rw [hco]; simp [qiParse, hp, hd]
      · intro q' hp hd; rw [hco]; simp [qiParse, hp, hd]
  · intro hqf hnn
    have hne : op.opcode ≠ .q := by rw [hqf]; intro h; cases h
    refine ⟨?_, ?_, ?_⟩
    · intro q hv
      rw [hfmt hne, if_neg (by simp [hnn]), hqf, hv]
      simp [coerceScalar]
    · intro hv
      rw [hfmt hne, if_neg (by simp [hnn]), hqf, hv]
      simp [coerceScalar, qfParse]
      rfl
    · intro hni
      have hco : formatResult op (.jarr (.jobj ((k, vl) :: fs) :: rest)) =
          qfParse op.dflt vl := by
        rw [hfmt hne, if_neg (by simp [hnn]), hqf]
        cases vl with
        | jnum q => exact absurd rfl (hni q)
        | jnull => cases hnn
        | _ => simp [coerceScalar]
      refine ⟨?_, ?_⟩
      · intro hp; rw [hco]; simp [qfParse, hp]
      · intro q' hp; rw [hco]; simp [qfParse, hp]

theorem claim4_witness :
    countOp.opcode = .qi ∧
    formatResult countOp (.jarr [.jobj [("v", .jstr "17")]]) = .jnum 17 ∧
    formatResult countOp (.jarr [.jobj [("v", .jnum (mkRat 5 2))]]) = countOp.dflt ∧
    formatResult countOp (.jarr []) = countOp.dflt ∧
    formatResult countOp .jnull = countOp.dflt := by
  refine ⟨by with_unfolding_all rfl, ?_, ?_, ?_, ?_⟩
  · have h := ((claim4_scalar_coercion countOp "v" (.jstr "17") [] []).2.2.2.1
      (by with_unfolding_all rfl) rfl).2
      (fun q hq => by cases hq)
    exact h.2.2 17 (by with_unfolding_all decide) (by decide)
  · have h := ((claim4_scalar_coercion countOp "v" (.jnum (mkRat 5 2)) [] []).2.2.2.1
      (by with_unfolding_all rfl) rfl).2
      (fun q hq => by cases hq; with_unfolding_all decide)
    exact h.2.1 (mkRat 5 2) (by with_unfolding_all decide) (by decide)
  · exact ((claim4_scalar_coercion countOp "v" .jnull [] []).2.1
      (by with_unfolding_all decide)).2.1
  · exact ((claim4_scalar_coercion countOp "v" .jnull [] []).2.1
      (by with_unfolding_all decide)).1

/-- C7: a second finalization attempt on a Stage whose finalization has
already begun fails immediately with the already-finalized UsageError
delivered to the callback, with an empty driver trace (no pool acquired, no
connection touched); and any finalization that passes the early checks seals
the Stage, so a Stage can be finalized exactly once. -/
theorem claim7_single_use_stage :
    (∀ (st : StageState) (bT : Bool) (d : Driver),
      st.finaleComplete = true →
      doFinale false true st true bT d =
        ([], .callback (some .alreadyFinale) .jnull, st)) ∧
    (∀ (st : StageState) (bT : Bool) (d : Driver),
      st.finaleComplete = false →
      ((doFinale false true st true bT d).2.2).finaleComplete = true) ∧
    Err.isUsage .alreadyFinale = true := by
  refine ⟨?_, ?_, rfl⟩
  · intro st bT d hfc
    rw [doFinale]
    simp [hfc]
  · intro st bT d hfc
    rw [doFinale]
    simp only [hfc, Bool.not_true, Bool.false_eq_true, if_false]
    repeat' first
      | rfl
      | split

theorem claim7_witness :
    doFinale false true ⟨[insertOp], true⟩ true true okDriver =
      ([], .callback (some .alreadyFinale) .jnull, ⟨[insertOp], true⟩) ∧
    ((doFinale false true ⟨[insertOp], false⟩ true true okDriver).2.2).finaleComplete =
      true ∧
    Err.isUsage .alreadyFinale = true :=
  ⟨claim7_single_use_stage.1 ⟨[insertOp], true⟩ true okDriver rfl,
   claim7_single_use_stage.2.1 ⟨[insertOp], false⟩ true okDriver rfl,
   claim7_single_use_stage.2.2⟩

/-- C8: once the global closing flag is set (by `curtains`), every
subsequently attempted finalization returns immediately with the
ShutdownError and an empty driver trace — it never contacts any pool — and
the flag stays set in every reachable state (no action resets it), so this
holds of every finalization after shutdown. -/
theorem claim8_shutdown_rejects :
    (∀ (cfg : Bool) (st : StageState) (cb bT : Bool) (d : Driver),
      doFinale true cfg st cb bT d =
        ([], callOrCrash cb (some .shutdown) .jnull, st)) ∧
    (∀ (g : SysState) (acts : List SysAct),
      g.closing = true → (runSys g acts).closing = true) ∧
    (doCurtains ⟨false⟩).closing = true ∧
    Err.isShutdown .shutdown = true := by
  refine ⟨fun cfg st cb bT d => rfl, ?_, rfl, rfl⟩
  intro g acts
  induction acts generalizing g with
  | nil => intro h; exact h
  | cons a acts ih =>
    intro h
    cases a with
    | curtains => exact ih _ rfl
    | finale cfg st cb bT d => exact ih _ h

theorem claim8_witness :
    doFinale true true ⟨[insertOp], false⟩ true false okDriver =
      ([], .callback (some .shutdown) .jnull, ⟨[insertOp], false⟩) ∧
    (runSys ⟨true⟩
      [.finale true ⟨[insertOp], false⟩ true false okDriver, .curtains]).closing =
      true := by
  constructor
  · exact claim8_shutdown_rejects.1 true ⟨[insertOp], false⟩ true false okDriver
  · exact claim8_shutdown_rejects.2.1 ⟨true⟩
      [.finale true ⟨[insertOp], false⟩ true false okDriver, .curtains] rfl

/-- C9 (the claim describes the intent; the code crashes instead): a
finalization invoked with a missing or non-function callback does NOT
surface the missing-callback UsageError — the source reports it by calling
the very callback that is missing (`return cb(new Error("Oops, ..."))`,
src/db.js line 231), which throws a synchronous TypeError out of `finale`.
The outcome is a crash, never a delivered UsageError. -/
theorem claim9_missing_callback_crash :
    ∀ (st : StageState) (bT : Bool) (d : Driver),
      doFinale false true st false bT d =
        ([], .crashed "TypeError: cb is not a function", st) :=
  fun _ _ _ => rfl

theorem claim6_witness :
    (parseSql "select a from t where b = :x and c = ?").bindStyles.colon = true ∧
    (parseSql "select a from t where b = :x and c = ?").bindStyles.qmark = true ∧
    execute "select a from t where b = :x and c = ?" (.jarr [.jnum 1]) =
      .error (.mixedStyles "select a from t where b = :x and c = ?") := by
  refine ⟨by decide, by decide, ?_⟩
  exact (claim6_mixed_styles_error _ (.jarr [.jnum 1]) .jnull (by decide) (by decide)).1

end Mysql2Db
